import Mathlib

/-! Bundle header reader (`installer/corehost/cli/apphost/bundle/header.cpp`)

A shallow embedding of `header_fixed_t::is_valid` and `header_t::read`; `header_t.read_run` is
`header_t::read` again with the calls on the reader and the reader's final state kept.

`header.cpp` includes `header.h`, `reader.h` and `error_codes.h`, none of which is among the
sources.  What the two functions need from them is gathered in `bundle_format` (constants and
widths), `reader_t` (the byte cursor) and `ErrorKind` (the failure kinds), each modelled from the
specification and marked as such.
-/

namespace bundle

set_option autoImplicit false

/-! ## Data model -/

/-- One byte of the manifest. -/
abbrev Byte := Fin 256

/-- Modelled from the spec: the error kinds of §7 (`error_codes.h` is not among the sources). -/
inductive ErrorKind
  | TruncatedInput
  | IncompatibleVersion
  | MalformedString
  | OutOfRange
  | InvalidHeader
  deriving DecidableEq, Repr

namespace StatusCode

/-- Modelled from the spec: the value of `StatusCode::BundleExtractionFailure`, the one status
`header_t::read` throws itself (`error_codes.h` is not among the sources).  The source reports it
with "Bundle header version compatibility check failed." and §4.2 step 3 names the failure of the
validity test `IncompatibleVersion`. -/
def BundleExtractionFailure : ErrorKind := ErrorKind.IncompatibleVersion

end StatusCode

/-- Modelled from the spec: what `header.cpp` takes from `header.h` and `reader.h`, which are not
among the sources: the reader's own version constants `header_t::major_version` and
`header_t::minor_version`, the byte width of `num_embedded_files` (§6: uint64 or uint32), the byte
width of a string's length field (§6: uint32) and the text rule of the format (§6: UTF-8; §7
lets the format cap the length), which yields the string of a byte run or nothing. -/
structure bundle_format where
  major_version : Nat
  minor_version : Nat
  count_width : Nat
  length_width : Nat
  decode_text : List Byte → Option String

/-- The fixed block `header_fixed_t`: unsigned fields (§3). -/
structure header_fixed_t where
  major_version : Nat
  minor_version : Nat
  num_embedded_files : Nat
  deriving DecidableEq, Repr

/-- The header `header_t`: built by `header_t header(num_embedded_files)`, then `m_bundle_id` is
filled in.  Its `major_version` and `minor_version` are static constants of the class (the source
names them `header_t::major_version`, without an object), not per-object fields. -/
structure header_t where
  m_num_embedded_files : Nat
  m_bundle_id : String
  deriving DecidableEq, Repr

/-- Modelled from the spec: the ByteCursor of §4.1 (`reader.h` is not among the sources): a byte
buffer of known length and a read position. -/
structure reader_t where
  buf : List Byte
  pos : Nat
  deriving DecidableEq, Repr

/-! ## Operations -/

/-- Source `header_fixed_t::is_valid` (header.cpp 12-17), the reader's version constants
`header_t::major_version`, `header_t::minor_version` passed as `reader_major`, `reader_minor`. -/
def header_fixed_t.is_valid (f : header_fixed_t) (reader_major reader_minor : Nat) : Bool :=
  decide (f.num_embedded_files > 0) &&
    (decide (f.major_version < reader_major) ||
      (decide (f.major_version = reader_major) && decide (f.minor_version ≤ reader_minor)))

/-- Little-endian value of a run of bytes (§4.2 step 1, §6). -/
def le_value : List Byte → Nat
  | [] => 0
  | b :: bs => b.val + 256 * le_value bs

/-- Modelled from the spec: `sizeof(header_fixed_t)`, for the layout of §6: two uint32 and the
count. -/
def sizeof_header_fixed_t (fmt : bundle_format) : Nat :=
  4 + 4 + fmt.count_width

/-- Modelled from the spec: the `reinterpret_cast` of the byte window onto `header_fixed_t`, for
the layout of §6: little-endian fields at offsets 0, 4 and 8. -/
def header_fixed_t.of_bytes (fmt : bundle_format) (bytes : List Byte) : header_fixed_t :=
  { major_version := le_value (bytes.take 4)
    minor_version := le_value ((bytes.drop 4).take 4)
    num_embedded_files := le_value ((bytes.drop 8).take fmt.count_width) }

/-- Number of bytes left after the read position. -/
def reader_t.remaining (r : reader_t) : Nat :=
  r.buf.length - r.pos

/-- Modelled from the spec: `reader_t::read_direct`, the `read_fixed(n)` of §4.1: the next `len`
bytes and the cursor advanced by `len`; `TruncatedInput` if fewer than `len` bytes remain. -/
def reader_t.read_direct (r : reader_t) (len : Nat) : Except ErrorKind (List Byte × reader_t) :=
  if r.remaining < len then
    Except.error ErrorKind.TruncatedInput
  else
    Except.ok ((r.buf.drop r.pos).take len, { r with pos := r.pos + len })

/-- Modelled from the spec: `reader_t::read_path_string`, the `read_length_prefixed_string()` of
§4.1: a little-endian length, then that many bytes, read as text; `TruncatedInput` if the length
field or the announced bytes exceed what remains, `MalformedString` if the bytes are not text of
the format. -/
def reader_t.read_path_string (fmt : bundle_format) (r : reader_t) :
    Except ErrorKind (String × reader_t) :=
  match r.read_direct fmt.length_width with
  | Except.error e => Except.error e
  | Except.ok (length_bytes, r1) =>
    match r1.read_direct (le_value length_bytes) with
    | Except.error e => Except.error e
    | Except.ok (bytes, r2) =>
      match fmt.decode_text bytes with
      | none => Except.error ErrorKind.MalformedString
      | some str => Except.ok (str, r2)

/-- Source `header_t::read` (header.cpp 19-37).  A C++ exception is an `Except.error`; the reader
passed by reference is returned with the result; the two `trace::error` calls before the throw
write to the log only and are left out. -/
def header_t.read (fmt : bundle_format) (reader : reader_t) :
    Except ErrorKind (header_t × reader_t) :=
  match reader.read_direct (sizeof_header_fixed_t fmt) with
  | Except.error e => Except.error e
  | Except.ok (bytes, reader1) =>
    let fixed_header := header_fixed_t.of_bytes fmt bytes
    if !fixed_header.is_valid fmt.major_version fmt.minor_version then
      Except.error StatusCode.BundleExtractionFailure
    else
      let header : header_t := { m_num_embedded_files := fixed_header.num_embedded_files
                                 m_bundle_id := "" }
      match reader1.read_path_string fmt with
      | Except.error e => Except.error e
      | Except.ok (str, reader2) => Except.ok ({ header with m_bundle_id := str }, reader2)

/-- The static constant `header_t::major_version`, as read through a header object. -/
def header_t.major_version (fmt : bundle_format) (_h : header_t) : Nat :=
  fmt.major_version

/-- The static constant `header_t::minor_version`, as read through a header object. -/
def header_t.minor_version (fmt : bundle_format) (_h : header_t) : Nat :=
  fmt.minor_version

/-! ## The run of `header_t::read` as its caller sees it -/

/-- A call made on the reader: the operation, the read position it starts at and, for a block
read, the length asked for. -/
inductive cursor_call
  | read_direct (start len : Nat)
  | read_path_string (start : Nat)
  deriving DecidableEq, Repr

/-- What a caller sees of a run of `header_t::read`.  The reader is passed by reference, so its
state at the return or at the throw is the caller's: `calls` are the calls made on the reader, in
order, `reader` is the state it is left in, `result` the header returned or the error thrown. -/
structure read_run where
  calls : List cursor_call
  reader : reader_t
  result : Except ErrorKind header_t

/-- Modelled from the spec: the state in which `reader_t::read_path_string` leaves the reader
(§4.1: no side effects beyond advancing the position): a block read that fails for lack of bytes
leaves the position where it was, what was read before it stays consumed. -/
def reader_t.after_read_path_string (fmt : bundle_format) (r : reader_t) : reader_t :=
  match r.read_direct fmt.length_width with
  | Except.error _ => r
  | Except.ok (length_bytes, r1) =>
    match r1.read_direct (le_value length_bytes) with
    | Except.error _ => r1
    | Except.ok (_, r2) => r2

/-- Source `header_t::read` (header.cpp 19-37) once more, statement by statement, with the calls
on the reader recorded and the reader's state kept on the throwing paths too. -/
def header_t.read_run (fmt : bundle_format) (reader : reader_t) : read_run :=
  let call1 := cursor_call.read_direct reader.pos (sizeof_header_fixed_t fmt)
  match reader.read_direct (sizeof_header_fixed_t fmt) with
  | Except.error e => { calls := [call1], reader := reader, result := Except.error e }
  | Except.ok (bytes, reader1) =>
    let fixed_header := header_fixed_t.of_bytes fmt bytes
    if !fixed_header.is_valid fmt.major_version fmt.minor_version then
      { calls := [call1], reader := reader1,
        result := Except.error StatusCode.BundleExtractionFailure }
    else
      let header : header_t := { m_num_embedded_files := fixed_header.num_embedded_files
                                 m_bundle_id := "" }
      let call2 := cursor_call.read_path_string reader1.pos
      match reader1.read_path_string fmt with
      | Except.error e =>
        { calls := [call1, call2], reader := reader1.after_read_path_string fmt,
          result := Except.error e }
      | Except.ok (str, reader2) =>
        { calls := [call1, call2], reader := reader2,
          result := Except.ok { header with m_bundle_id := str } }

/-! ## The fixed block in the specification's words -/

/-- The value of the byte at offset `i` from the read position (0 past the end of the buffer). -/
def reader_t.byte_at (r : reader_t) (i : Nat) : Nat :=
  (r.buf.getD (r.pos + i) 0).val

/-- The fixed block as §6 and §4.2 step 1 word it, to be compared with what `header_t::read`
decodes: `major_version` is the little-endian uint32 at offsets 0..3, `minor_version` the one at
offsets 4..7, `num_embedded_files` the little-endian value of the `count_width` bytes from
offset 8. -/
def little_endian_fixed_header (fmt : bundle_format) (r : reader_t) : header_fixed_t :=
  { major_version :=
      r.byte_at 0 + 2 ^ 8 * r.byte_at 1 + 2 ^ 16 * r.byte_at 2 + 2 ^ 24 * r.byte_at 3
    minor_version :=
      r.byte_at 4 + 2 ^ 8 * r.byte_at 5 + 2 ^ 16 * r.byte_at 6 + 2 ^ 24 * r.byte_at 7
    num_embedded_files :=
      ∑ i in Finset.range fmt.count_width, 2 ^ (8 * i) * r.byte_at (8 + i) }

/-! ## Concrete formats and buffers -/

/-- A text rule for examples: bytes below 128 are ASCII characters, anything else is not text. -/
def ascii_text (bytes : List Byte) : Option String :=
  if bytes.all (fun b => decide (b.val < 128)) then
    some (String.mk (bytes.map (fun b => Char.ofNat b.val)))
  else
    none

/-- A reader of version 1.0 with a 4-byte count. -/
def fmt_1_0 : bundle_format :=
  { major_version := 1, minor_version := 0, count_width := 4, length_width := 4,
    decode_text := ascii_text }

/-- A reader of version 2.0 with an 8-byte count (the layout of §6). -/
def fmt_2_0 : bundle_format :=
  { major_version := 2, minor_version := 0, count_width := 8, length_width := 4,
    decode_text := ascii_text }

/-- The container of the end-to-end example of §8 in the layout of `fmt_2_0`: major 1, minor 2,
two embedded files, bundle id "abcd1234". -/
def example_container : List Byte :=
  [1, 0, 0, 0,  2, 0, 0, 0,  2, 0, 0, 0, 0, 0, 0, 0,
   8, 0, 0, 0,  97, 98, 99, 100, 49, 50, 51, 52]

/-- A container in the layout of `fmt_1_0` with no embedded file and a version (0.0) older than
the reader's: major 0, minor 0, count 0, bundle id "a". -/
def zero_count_container : List Byte :=
  [0, 0, 0, 0,  0, 0, 0, 0,  0, 0, 0, 0,  1, 0, 0, 0,  97]

/-- A container in the layout of `fmt_1_0` from a newer writer: major 2, minor 0, count 1,
bundle id "a". -/
def newer_container : List Byte :=
  [2, 0, 0, 0,  0, 0, 0, 0,  1, 0, 0, 0,  1, 0, 0, 0,  97]

/-- A container in the layout of `fmt_1_0` from an older writer: major 0, minor 5, count 1,
bundle id "a". -/
def older_container : List Byte :=
  [0, 0, 0, 0,  5, 0, 0, 0,  1, 0, 0, 0,  1, 0, 0, 0,  97]

/-- A container in the layout of `fmt_1_0` with a valid fixed block (version 1.0, one file) whose
bundle id is the single byte 200, which is not text for `ascii_text`. -/
def malformed_id_container : List Byte :=
  [1, 0, 0, 0,  0, 0, 0, 0,  1, 0, 0, 0,  1, 0, 0, 0,  200]

/-- A container in the layout of `fmt_1_0` whose fixed block uses every byte position: major
0x01000000 + 0x020000 + 0x0300 + 0x04, minor 0, count 0x0201, bundle id "a". -/
def wide_fields_container : List Byte :=
  [4, 3, 2, 1,  0, 0, 0, 0,  1, 2, 0, 0,  1, 0, 0, 0,  97]

/-! ## Theorems -/

/-! ### Shared lemmas on `is_valid`, on the cursor and on `header_t::read` -/

theorem is_valid_eq_true_iff (f : header_fixed_t) (reader_major reader_minor : Nat) :
    f.is_valid reader_major reader_minor = true ↔
      f.num_embedded_files > 0 ∧
        (f.major_version < reader_major ∨
          (f.major_version = reader_major ∧ f.minor_version ≤ reader_minor)) := by
  simp [header_fixed_t.is_valid]

theorem read_direct_ok_iff (r : reader_t) (len : Nat) (bytes : List Byte) (r1 : reader_t) :
    r.read_direct len = Except.ok (bytes, r1) ↔
      ¬ r.remaining < len ∧ bytes = (r.buf.drop r.pos).take len ∧
        r1 = { buf := r.buf, pos := r.pos + len } := by
  unfold reader_t.read_direct
  split
  · simp_all
  · simp_all [eq_comm]

theorem read_direct_error_iff (r : reader_t) (len : Nat) (e : ErrorKind) :
    r.read_direct len = Except.error e ↔ r.remaining < len ∧ e = ErrorKind.TruncatedInput := by
  unfold reader_t.read_direct
  split
  · simp_all [eq_comm]
  · simp_all

theorem read_path_string_ok_iff (fmt : bundle_format) (r : reader_t) (str : String)
    (r2 : reader_t) :
    r.read_path_string fmt = Except.ok (str, r2) ↔
      ∃ length_bytes r1 bytes,
        r.read_direct fmt.length_width = Except.ok (length_bytes, r1) ∧
        r1.read_direct (le_value length_bytes) = Except.ok (bytes, r2) ∧
        fmt.decode_text bytes = some str := by
  unfold reader_t.read_path_string
  constructor
  · intro h
    split at h
    · simp at h
    · rename_i length_bytes r1 h1
      split at h
      · simp at h
      · rename_i bytes r2x h2
        split at h
        · simp at h
        · rename_i s hs
          simp only [Except.ok.injEq, Prod.mk.injEq] at h
          obtain ⟨rfl, rfl⟩ := h
          exact ⟨length_bytes, r1, bytes, h1, h2, hs⟩
  · rintro ⟨length_bytes, r1, bytes, h1, h2, hs⟩
    simp [h1, h2, hs]

theorem read_path_string_error (fmt : bundle_format) (r : reader_t) (e : ErrorKind)
    (h : r.read_path_string fmt = Except.error e) :
    e = ErrorKind.TruncatedInput ∨ e = ErrorKind.MalformedString := by
  unfold reader_t.read_path_string at h
  split at h
  · rename_i e1 h1
    simp only [Except.error.injEq] at h
    subst h
    exact Or.inl ((read_direct_error_iff _ _ _).1 h1).2
  · split at h
    · rename_i e2 h2
      simp only [Except.error.injEq] at h
      subst h
      exact Or.inl ((read_direct_error_iff _ _ _).1 h2).2
    · split at h
      · simp only [Except.error.injEq] at h
        exact Or.inr h.symm
      · simp at h

theorem read_ok_iff (fmt : bundle_format) (reader : reader_t) (h : header_t) (reader2 : reader_t) :
    header_t.read fmt reader = Except.ok (h, reader2) ↔
      ∃ bytes reader1 str,
        reader.read_direct (sizeof_header_fixed_t fmt) = Except.ok (bytes, reader1) ∧
        (header_fixed_t.of_bytes fmt bytes).is_valid fmt.major_version fmt.minor_version = true ∧
        reader1.read_path_string fmt = Except.ok (str, reader2) ∧
        h = { m_num_embedded_files := (header_fixed_t.of_bytes fmt bytes).num_embedded_files
              m_bundle_id := str } := by
  unfold header_t.read
  constructor
  · intro hr
    split at hr
    · simp at hr
    · rename_i bytes reader1 h1
      by_cases hv : (header_fixed_t.of_bytes fmt bytes).is_valid fmt.major_version
          fmt.minor_version = true
      · simp only [hv, Bool.not_true, Bool.false_eq_true, if_false] at hr
        split at hr
        · simp at hr
        · rename_i str r2 hs
          simp only [Except.ok.injEq, Prod.mk.injEq] at hr
          obtain ⟨rfl, rfl⟩ := hr
          exact ⟨bytes, reader1, str, h1, hv, hs, rfl⟩
      · simp [hv] at hr
  · rintro ⟨bytes, reader1, str, h1, hv, hs, rfl⟩
    simp [h1, hv, hs]

theorem read_invalid (fmt : bundle_format) (reader : reader_t) (bytes : List Byte)
    (reader1 : reader_t)
    (hfix : reader.read_direct (sizeof_header_fixed_t fmt) = Except.ok (bytes, reader1))
    (hinv : (header_fixed_t.of_bytes fmt bytes).is_valid fmt.major_version fmt.minor_version
      = false) :
    header_t.read fmt reader = Except.error StatusCode.BundleExtractionFailure := by
  unfold header_t.read
  simp [hfix, hinv]

theorem read_error_iff (fmt : bundle_format) (reader : reader_t) (e : ErrorKind) :
    header_t.read fmt reader = Except.error e ↔
      reader.read_direct (sizeof_header_fixed_t fmt) = Except.error e ∨
      (∃ bytes reader1,
        reader.read_direct (sizeof_header_fixed_t fmt) = Except.ok (bytes, reader1) ∧
        (header_fixed_t.of_bytes fmt bytes).is_valid fmt.major_version fmt.minor_version = false ∧
        e = StatusCode.BundleExtractionFailure) ∨
      (∃ bytes reader1,
        reader.read_direct (sizeof_header_fixed_t fmt) = Except.ok (bytes, reader1) ∧
        (header_fixed_t.of_bytes fmt bytes).is_valid fmt.major_version fmt.minor_version = true ∧
        reader1.read_path_string fmt = Except.error e) := by
  rcases h1 : reader.read_direct (sizeof_header_fixed_t fmt) with e1 | ⟨bytes, reader1⟩
  · have hr : header_t.read fmt reader = Except.error e1 := by simp [header_t.read, h1]
    rw [hr]
    simp
  · by_cases hv : (header_fixed_t.of_bytes fmt bytes).is_valid fmt.major_version
        fmt.minor_version = true
    · have hr : header_t.read fmt reader =
          (match reader1.read_path_string fmt with
            | Except.error e => Except.error e
            | Except.ok (str, reader2) => Except.ok
                ({ m_num_embedded_files := (header_fixed_t.of_bytes fmt bytes).num_embedded_files
                   m_bundle_id := str }, reader2)) := by
        simp [header_t.read, h1, hv]
      rw [hr]
      constructor
      · intro h
        refine Or.inr (Or.inr ⟨bytes, reader1, rfl, hv, ?_⟩)
        rcases hs : reader1.read_path_string fmt with e2 | ⟨str, reader2⟩
        · rw [hs] at h
          simp only [Except.error.injEq] at h
          rw [h]
        · rw [hs] at h
          cases h
      · rintro (h | ⟨b, r, hb, hinv, _⟩ | ⟨b, r, hb, _, hs⟩)
        · cases h
        · cases hb
          rw [hv] at hinv
          cases hinv
        · cases hb
          rw [hs]
    · simp only [Bool.not_eq_true] at hv
      rw [read_invalid fmt reader bytes reader1 h1 hv]
      constructor
      · intro h
        cases h
        exact Or.inr (Or.inl ⟨bytes, reader1, rfl, hv, rfl⟩)
      · rintro (h | ⟨_, _, _, _, h⟩ | ⟨b, r, hb, hval, _⟩)
        · cases h
        · rw [h]
        · cases hb
          rw [hv] at hval
          cases hval

theorem read_direct_take_ok (buf : List Byte) (k a n : Nat) (hk : k ≤ buf.length)
    (h : a + n ≤ k) :
    (reader_t.mk (buf.take k) a).read_direct n
      = Except.ok ((buf.drop a).take n, reader_t.mk (buf.take k) (a + n)) := by
  rw [read_direct_ok_iff]
  refine ⟨?_, ?_, rfl⟩
  · simp only [reader_t.remaining, List.length_take]
    omega
  · simp only [List.drop_take, List.take_take]
    congr 1
    omega

theorem read_direct_take_short (buf : List Byte) (k a n : Nat) (hk : k ≤ buf.length)
    (ha : a ≤ k) (h : k < a + n) :
    (reader_t.mk (buf.take k) a).read_direct n = Except.error ErrorKind.TruncatedInput := by
  rw [read_direct_error_iff]
  refine ⟨?_, rfl⟩
  simp only [reader_t.remaining, List.length_take]
  omega

theorem read_run_result (fmt : bundle_format) (reader : reader_t) :
    header_t.read fmt reader =
      (match (header_t.read_run fmt reader).result with
        | Except.error e => Except.error e
        | Except.ok h => Except.ok (h, (header_t.read_run fmt reader).reader)) := by
  unfold header_t.read header_t.read_run
  rcases h1 : reader.read_direct (sizeof_header_fixed_t fmt) with e1 | ⟨bytes, reader1⟩
  · rfl
  · by_cases hv : (header_fixed_t.of_bytes fmt bytes).is_valid fmt.major_version
        fmt.minor_version = true
    · rcases hs : reader1.read_path_string fmt with e2 | ⟨str, reader2⟩
      · simp [hv, hs]
      · simp [hv, hs]
    · simp only [Bool.not_eq_true] at hv
      simp [hv]

theorem le_value_take (n : Nat) (l : List Byte) :
    le_value (l.take n) = ∑ i in Finset.range n, 2 ^ (8 * i) * (l.getD i 0).val := by
  induction n generalizing l with
  | zero => simp [le_value]
  | succ n ih =>
    cases l with
    | nil => simp [le_value]
    | cons b t =>
      rw [List.take_succ_cons, le_value, ih t, Finset.sum_range_succ', Finset.mul_sum]
      simp only [List.getD_cons_succ, List.getD_cons_zero, Nat.mul_zero, pow_zero, one_mul]
      rw [add_comm]
      congr 1
      apply Finset.sum_congr rfl
      intro i _
      ring

theorem getD_drop (buf : List Byte) (p i : Nat) :
    (buf.drop p).getD i 0 = buf.getD (p + i) 0 := by
  simp only [List.getD_eq_getElem?_getD, List.getElem?_drop]

theorem of_bytes_read_direct (fmt : bundle_format) (reader : reader_t) (bytes : List Byte)
    (reader1 : reader_t)
    (hfix : reader.read_direct (sizeof_header_fixed_t fmt) = Except.ok (bytes, reader1)) :
    header_fixed_t.of_bytes fmt bytes = little_endian_fixed_header fmt reader := by
  obtain ⟨_, rfl, _⟩ := (read_direct_ok_iff _ _ _ _).1 hfix
  have h4 : min 4 (sizeof_header_fixed_t fmt) = 4 := by
    simp only [sizeof_header_fixed_t]
    omega
  have h4b : min 4 (sizeof_header_fixed_t fmt - 4) = 4 := by
    simp only [sizeof_header_fixed_t]
    omega
  have hw : min fmt.count_width (sizeof_header_fixed_t fmt - 8) = fmt.count_width := by
    simp only [sizeof_header_fixed_t]
    omega
  simp only [header_fixed_t.of_bytes, little_endian_fixed_header, reader_t.byte_at,
    List.drop_take, List.take_take, h4, h4b, hw, le_value_take, List.drop_drop,
    header_fixed_t.mk.injEq]
  refine ⟨?_, ?_, ?_⟩
  · simp only [Finset.sum_range_succ, Finset.sum_range_zero, getD_drop]
    norm_num
  · simp only [Finset.sum_range_succ, Finset.sum_range_zero, getD_drop]
    norm_num
  · apply Finset.sum_congr rfl
    intro i _
    rw [getD_drop, Nat.add_assoc]

/-! ### The validity predicate -/


/-- C1: `is_valid` is true exactly when `num_embedded_files > 0` and the writer's version is
below the reader's major, or equal in major and not above in minor. -/
theorem is_valid_iff (f : header_fixed_t) (reader_major reader_minor : Nat) :
    f.is_valid reader_major reader_minor = true ↔
      f.num_embedded_files > 0 ∧
        (f.major_version < reader_major ∨
          (f.major_version = reader_major ∧ f.minor_version ≤ reader_minor)) := by
  simp [header_fixed_t.is_valid]

/-- C4: a writer newer than the reader is invalid, whatever the file count: a greater major
version with any minor version, or the same major version with a greater minor version. -/
theorem newer_writer_invalid (f : header_fixed_t) (reader_major reader_minor : Nat)
    (hnewer : f.major_version > reader_major ∨
      (f.major_version = reader_major ∧ f.minor_version > reader_minor)) :
    f.is_valid reader_major reader_minor = false := by
  rw [← Bool.not_eq_true, is_valid_eq_true_iff]
  omega

/-- Witness of C4 at the two boundary cases, for the reader 3.7: major 3+1 with a small minor, and
major 3 with minor 7+1. -/
theorem newer_writer_invalid_witness :
    (3 + 1 > 3 ∧ (header_fixed_t.mk (3 + 1) 0 5).is_valid 3 7 = false) ∧
      ((3 = 3 ∧ 7 + 1 > 7) ∧ (header_fixed_t.mk 3 (7 + 1) 5).is_valid 3 7 = false) :=
  ⟨⟨by decide, newer_writer_invalid ⟨3 + 1, 0, 5⟩ 3 7 (Or.inl (by decide))⟩,
    ⟨by decide, newer_writer_invalid ⟨3, 7 + 1, 5⟩ 3 7 (Or.inr (by decide))⟩⟩

/-- C5: with at least one embedded file, a writer of the reader's own version is valid, and a
writer of a smaller major version is valid whatever its minor version. -/
theorem older_or_equal_writer_valid (f : header_fixed_t) (reader_major reader_minor : Nat)
    (hcount : f.num_embedded_files > 0)
    (holder : (f.major_version = reader_major ∧ f.minor_version = reader_minor) ∨
      f.major_version < reader_major) :
    f.is_valid reader_major reader_minor = true := by
  rw [is_valid_eq_true_iff]
  omega

/-- Witness of C5 for the reader 3.7: the version 3.7 itself, and major 3-1 with a minor version
above the reader's. -/
theorem older_or_equal_writer_valid_witness :
    (header_fixed_t.mk 3 7 1).is_valid 3 7 = true ∧
      (9 > 7 ∧ (header_fixed_t.mk (3 - 1) 9 1).is_valid 3 7 = true) :=
  ⟨older_or_equal_writer_valid ⟨3, 7, 1⟩ 3 7 (by decide) (Or.inl (by decide)),
    by decide, older_or_equal_writer_valid ⟨3 - 1, 9, 1⟩ 3 7 (by decide) (Or.inr (by decide))⟩

/-! ### `header_t::read`: promotion of the fixed block -/

/-- C2: an invalid fixed header is never promoted.  If `header_t::read` returns a header, the
fixed block it decoded satisfied `is_valid` and the header's `num_embedded_files` is positive; and
whenever the decoded fixed block fails `is_valid`, `read` fails. -/
theorem read_never_promotes_invalid (fmt : bundle_format) (reader : reader_t) :
    (∀ h reader2, header_t.read fmt reader = Except.ok (h, reader2) →
      ∃ bytes reader1,
        reader.read_direct (sizeof_header_fixed_t fmt) = Except.ok (bytes, reader1) ∧
        (header_fixed_t.of_bytes fmt bytes).is_valid fmt.major_version fmt.minor_version = true ∧
        h.m_num_embedded_files > 0) ∧
    (∀ bytes reader1,
      reader.read_direct (sizeof_header_fixed_t fmt) = Except.ok (bytes, reader1) →
      (header_fixed_t.of_bytes fmt bytes).is_valid fmt.major_version fmt.minor_version = false →
      ∃ e, header_t.read fmt reader = Except.error e) := by
  constructor
  · intro h reader2 hr
    obtain ⟨bytes, reader1, str, h1, hv, _, rfl⟩ := (read_ok_iff fmt reader h reader2).1 hr
    exact ⟨bytes, reader1, h1, hv, ((is_valid_eq_true_iff _ _ _).1 hv).1⟩
  · intro bytes reader1 h1 hinv
    exact ⟨_, read_invalid fmt reader bytes reader1 h1 hinv⟩

/-- Witness of C2: the accepted example container went through a valid fixed block, and the
container of a newer writer yields no header. -/
theorem read_never_promotes_invalid_witness :
    (∃ bytes reader1,
      (reader_t.mk example_container 0).read_direct (sizeof_header_fixed_t fmt_2_0)
        = Except.ok (bytes, reader1) ∧
      (header_fixed_t.of_bytes fmt_2_0 bytes).is_valid 2 0 = true ∧ 2 > 0) ∧
    (∃ e, header_t.read fmt_1_0 (reader_t.mk newer_container 0) = Except.error e) :=
  ⟨(read_never_promotes_invalid fmt_2_0 ⟨example_container, 0⟩).1
      ⟨2, "abcd1234"⟩ ⟨example_container, 28⟩ rfl,
    (read_never_promotes_invalid fmt_1_0 ⟨newer_container, 0⟩).2
      (newer_container.take 12) ⟨newer_container, 12⟩ rfl rfl⟩

/-- C6: when the fixed block is read and valid and the string read that follows succeeds with
`str`, `header_t::read` returns a header whose `num_embedded_files` is the fixed block's and whose
`bundle_id` is `str`. -/
theorem read_builds_header (fmt : bundle_format) (reader : reader_t) (bytes : List Byte)
    (reader1 : reader_t) (str : String) (reader2 : reader_t)
    (hfix : reader.read_direct (sizeof_header_fixed_t fmt) = Except.ok (bytes, reader1))
    (hvalid : (header_fixed_t.of_bytes fmt bytes).is_valid fmt.major_version fmt.minor_version
      = true)
    (hstr : reader1.read_path_string fmt = Except.ok (str, reader2)) :
    ∃ h, header_t.read fmt reader = Except.ok (h, reader2) ∧
      h.m_num_embedded_files = (header_fixed_t.of_bytes fmt bytes).num_embedded_files ∧
      h.m_bundle_id = str :=
  ⟨_, (read_ok_iff fmt reader _ reader2).2 ⟨bytes, reader1, str, hfix, hvalid, hstr, rfl⟩,
    rfl, rfl⟩

/-- Witness of C6 on the example container of §8: two files, bundle id "abcd1234". -/
theorem read_builds_header_witness :
    ∃ h, header_t.read fmt_2_0 (reader_t.mk example_container 0)
        = Except.ok (h, reader_t.mk example_container 28) ∧
      h.m_num_embedded_files
        = (header_fixed_t.of_bytes fmt_2_0 (example_container.take 16)).num_embedded_files ∧
      h.m_bundle_id = "abcd1234" :=
  read_builds_header fmt_2_0 ⟨example_container, 0⟩ (example_container.take 16)
    ⟨example_container, 16⟩ "abcd1234" ⟨example_container, 28⟩ rfl rfl rfl

/-! ### `header_t::read`: the failure of an invalid fixed block -/

/-- C3 (amended): a fixed header with `num_embedded_files == 0` is rejected whatever its version
fields and whatever the reader's version: `is_valid` is false and `header_t::read` fails, with
the one error it has for an invalid fixed header (`StatusCode::BundleExtractionFailure`, the
`IncompatibleVersion` of §4.2 step 3). -/
theorem zero_files_rejected (fmt : bundle_format) (reader : reader_t) (bytes : List Byte)
    (reader1 : reader_t)
    (hfix : reader.read_direct (sizeof_header_fixed_t fmt) = Except.ok (bytes, reader1))
    (hzero : (header_fixed_t.of_bytes fmt bytes).num_embedded_files = 0) :
    (∀ reader_major reader_minor,
      (header_fixed_t.of_bytes fmt bytes).is_valid reader_major reader_minor = false) ∧
    (∀ major minor reader_major reader_minor,
      (header_fixed_t.mk major minor 0).is_valid reader_major reader_minor = false) ∧
    header_t.read fmt reader = Except.error ErrorKind.IncompatibleVersion := by
  have hall : ∀ reader_major reader_minor,
      (header_fixed_t.of_bytes fmt bytes).is_valid reader_major reader_minor = false := by
    intro reader_major reader_minor
    simp [header_fixed_t.is_valid, hzero]
  refine ⟨hall, ?_, read_invalid fmt reader bytes reader1 hfix (hall _ _)⟩
  intro major minor reader_major reader_minor
  simp [header_fixed_t.is_valid]

/-- Witness of C3 (amended): the container with version 0.0 and no file, read by the reader
1.0. -/
theorem zero_files_rejected_witness :
    (header_fixed_t.of_bytes fmt_1_0 (zero_count_container.take 12)).num_embedded_files = 0 ∧
      header_t.read fmt_1_0 (reader_t.mk zero_count_container 0)
        = Except.error ErrorKind.IncompatibleVersion :=
  ⟨rfl, (zero_files_rejected fmt_1_0 ⟨zero_count_container, 0⟩ (zero_count_container.take 12)
    ⟨zero_count_container, 12⟩ rfl rfl).2.2⟩

/-- C3 as stated fails: the container with version 0.0 (older than the reader 1.0) and no file is
rejected with the error of the validity test, which is not `InvalidHeader`. -/
theorem zero_files_error_is_not_InvalidHeader :
    (header_fixed_t.of_bytes fmt_1_0 (zero_count_container.take 12)).num_embedded_files = 0 ∧
      header_t.read fmt_1_0 (reader_t.mk zero_count_container 0)
        = Except.error StatusCode.BundleExtractionFailure ∧
      header_t.read fmt_1_0 (reader_t.mk zero_count_container 0)
        ≠ Except.error ErrorKind.InvalidHeader := by
  refine ⟨rfl, rfl, ?_⟩
  intro h
  have h2 : (Except.error ErrorKind.IncompatibleVersion : Except ErrorKind (header_t × reader_t))
      = Except.error ErrorKind.InvalidHeader := h
  cases h2

/-- C8 (amended): `header_t::read` fails with `IncompatibleVersion` exactly when the fixed block
was read and fails `is_valid`, be it by the version test or by a zero count; the cursor never
raises this kind: a block read fails with `TruncatedInput` only, a string read with
`TruncatedInput` or `MalformedString` only. -/
theorem incompatible_version_iff (fmt : bundle_format) (reader : reader_t) :
    (header_t.read fmt reader = Except.error ErrorKind.IncompatibleVersion ↔
      ∃ bytes reader1,
        reader.read_direct (sizeof_header_fixed_t fmt) = Except.ok (bytes, reader1) ∧
        (header_fixed_t.of_bytes fmt bytes).is_valid fmt.major_version fmt.minor_version
          = false) ∧
    (∀ (r : reader_t) (len : Nat) (e : ErrorKind),
      r.read_direct len = Except.error e → e = ErrorKind.TruncatedInput) ∧
    (∀ (r : reader_t) (e : ErrorKind),
      r.read_path_string fmt = Except.error e →
        e = ErrorKind.TruncatedInput ∨ e = ErrorKind.MalformedString) := by
  refine ⟨?_, fun r len e h => ((read_direct_error_iff r len e).1 h).2,
    fun r e h => read_path_string_error fmt r e h⟩
  constructor
  · intro h
    rcases (read_error_iff fmt reader _).1 h with h1 | ⟨bytes, reader1, h1, hv, _⟩ |
      ⟨bytes, reader1, _, _, hs⟩
    · have := ((read_direct_error_iff _ _ _).1 h1).2
      cases this
    · exact ⟨bytes, reader1, h1, hv⟩
    · rcases read_path_string_error fmt reader1 _ hs with h2 | h2 <;> cases h2
  · rintro ⟨bytes, reader1, h1, hv⟩
    exact read_invalid fmt reader bytes reader1 h1 hv

/-- C8 as stated fails: under the reader 1.0, the container of a newer writer with one file and
the container with no file are rejected with the same error, so the error value does not tell a
version mismatch from a zero count. -/
theorem zero_count_and_version_errors_coincide :
    (header_fixed_t.of_bytes fmt_1_0 (newer_container.take 12)).num_embedded_files > 0 ∧
    (header_fixed_t.of_bytes fmt_1_0 (newer_container.take 12)).major_version > 1 ∧
    (header_fixed_t.of_bytes fmt_1_0 (zero_count_container.take 12)).num_embedded_files = 0 ∧
    ∃ e, header_t.read fmt_1_0 (reader_t.mk newer_container 0) = Except.error e ∧
      header_t.read fmt_1_0 (reader_t.mk zero_count_container 0) = Except.error e :=
  ⟨by decide, by decide, rfl, StatusCode.BundleExtractionFailure, rfl, rfl⟩

/-! ### `header_t::read`: what the header keeps -/

/-- C7 (amended): the header returned by `header_t::read` takes `num_embedded_files` from the
fixed block; its `major_version` and `minor_version` are the reader's constants, which the
version stored in the fixed block does not exceed (major below, or major equal and minor not
above). -/
theorem header_keeps_count_not_version (fmt : bundle_format) (reader : reader_t) (h : header_t)
    (reader2 : reader_t) (hread : header_t.read fmt reader = Except.ok (h, reader2)) :
    ∃ bytes reader1,
      reader.read_direct (sizeof_header_fixed_t fmt) = Except.ok (bytes, reader1) ∧
      h.m_num_embedded_files = (header_fixed_t.of_bytes fmt bytes).num_embedded_files ∧
      h.major_version fmt = fmt.major_version ∧ h.minor_version fmt = fmt.minor_version ∧
      ((header_fixed_t.of_bytes fmt bytes).major_version < h.major_version fmt ∨
        ((header_fixed_t.of_bytes fmt bytes).major_version = h.major_version fmt ∧
          (header_fixed_t.of_bytes fmt bytes).minor_version ≤ h.minor_version fmt)) := by
  obtain ⟨bytes, reader1, str, h1, hv, _, rfl⟩ := (read_ok_iff fmt reader h reader2).1 hread
  exact ⟨bytes, reader1, h1, rfl, rfl, rfl, ((is_valid_eq_true_iff _ _ _).1 hv).2⟩

/-- Witness of C7 (amended): the example container of §8 (version 1.2) read by the reader 2.0. -/
theorem header_keeps_count_not_version_witness :
    ∃ bytes reader1,
      (reader_t.mk example_container 0).read_direct (sizeof_header_fixed_t fmt_2_0)
        = Except.ok (bytes, reader1) ∧
      (2 : Nat) = (header_fixed_t.of_bytes fmt_2_0 bytes).num_embedded_files ∧
      (2 : Nat) = 2 ∧ (0 : Nat) = 0 ∧
      ((header_fixed_t.of_bytes fmt_2_0 bytes).major_version < 2 ∨
        ((header_fixed_t.of_bytes fmt_2_0 bytes).major_version = 2 ∧
          (header_fixed_t.of_bytes fmt_2_0 bytes).minor_version ≤ 0)) :=
  header_keeps_count_not_version fmt_2_0 ⟨example_container, 0⟩ ⟨2, "abcd1234"⟩
    ⟨example_container, 28⟩ rfl

/-- C7 as stated fails: the example container of §8 (major 1, minor 2, two files, bundle id
"abcd1234") is accepted by the reader 2.0, and the header's version is 2.0, not 1.2; likewise the
container of version 0.5 is accepted by the reader 1.0 and the header's version is 1.0. -/
theorem header_version_is_not_the_container_version :
    (header_t.read fmt_2_0 (reader_t.mk example_container 0)
        = Except.ok (header_t.mk 2 "abcd1234", reader_t.mk example_container 28) ∧
      (header_fixed_t.of_bytes fmt_2_0 (example_container.take 16)).major_version = 1 ∧
      (header_fixed_t.of_bytes fmt_2_0 (example_container.take 16)).minor_version = 2 ∧
      (header_t.mk 2 "abcd1234").major_version fmt_2_0 ≠ 1 ∧
      (header_t.mk 2 "abcd1234").minor_version fmt_2_0 ≠ 2) ∧
    (header_t.read fmt_1_0 (reader_t.mk older_container 0)
        = Except.ok (header_t.mk 1 "a", reader_t.mk older_container 17) ∧
      (header_fixed_t.of_bytes fmt_1_0 (older_container.take 12)).major_version = 0 ∧
      (header_fixed_t.of_bytes fmt_1_0 (older_container.take 12)).minor_version = 5 ∧
      (header_t.mk 1 "a").major_version fmt_1_0 ≠ 0 ∧
      (header_t.mk 1 "a").minor_version fmt_1_0 ≠ 5) :=
  ⟨⟨rfl, rfl, rfl, by decide, by decide⟩, ⟨rfl, rfl, rfl, by decide, by decide⟩⟩

/-! ### `header_t::read`: truncation and determinism -/

/-- C9 (amended): truncation of an accepted header is detected.  If `header_t::read` accepts a
buffer from position 0 and ends at position `reader2.pos` (the full encoded size of the header),
then on the first `k` bytes, for every `k` below that size, it fails with `TruncatedInput`;
whenever fewer than `sizeof(header_fixed_t)` bytes remain it fails with `TruncatedInput` whatever
the bytes and the reader's version are, the fixed block not being decoded; and a prefix that
holds the whole fixed block of a header failing `is_valid` fails with the error of the validity
test (`IncompatibleVersion`), the string read not being reached. -/
theorem truncation_detected (fmt : bundle_format) (buf : List Byte) (h : header_t)
    (reader2 : reader_t) (k : Nat)
    (hfull : header_t.read fmt (reader_t.mk buf 0) = Except.ok (h, reader2))
    (hk : k < reader2.pos) :
    header_t.read fmt (reader_t.mk (buf.take k) 0) = Except.error ErrorKind.TruncatedInput ∧
    (∀ (fmt2 : bundle_format) (r : reader_t), r.remaining < sizeof_header_fixed_t fmt2 →
      header_t.read fmt2 r = Except.error ErrorKind.TruncatedInput) ∧
    (∀ (fmt2 : bundle_format) (buf2 : List Byte) (k2 : Nat),
      sizeof_header_fixed_t fmt2 ≤ k2 → k2 ≤ buf2.length →
      (header_fixed_t.of_bytes fmt2 (buf2.take (sizeof_header_fixed_t fmt2))).is_valid
        fmt2.major_version fmt2.minor_version = false →
      header_t.read fmt2 (reader_t.mk (buf2.take k2) 0)
        = Except.error ErrorKind.IncompatibleVersion) := by
  refine ⟨?_, fun fmt2 r hr => (read_error_iff fmt2 r _).2
    (Or.inl ((read_direct_error_iff _ _ _).2 ⟨hr, rfl⟩)), ?_⟩
  rotate_left
  · intro fmt2 buf2 k2 hsize hk2 hinv
    have hfix := read_direct_take_ok buf2 k2 0 (sizeof_header_fixed_t fmt2) hk2 (by omega)
    simp only [List.drop_zero, Nat.zero_add] at hfix
    exact read_invalid fmt2 _ _ _ hfix hinv
  obtain ⟨bytes, reader1, str, h1, hv, hs, rfl⟩ := (read_ok_iff fmt _ h reader2).1 hfull
  obtain ⟨hrem1, rfl, rfl⟩ := (read_direct_ok_iff _ _ _ _).1 h1
  obtain ⟨length_bytes, r1, bs, h2, h3, _⟩ := (read_path_string_ok_iff fmt _ str reader2).1 hs
  obtain ⟨hrem2, rfl, rfl⟩ := (read_direct_ok_iff _ _ _ _).1 h2
  obtain ⟨hrem3, rfl, rfl⟩ := (read_direct_ok_iff _ _ _ _).1 h3
  simp only [reader_t.remaining, Nat.zero_add, List.drop_zero, Nat.sub_zero] at *
  have hlen : k ≤ buf.length := by omega
  rw [read_error_iff]
  by_cases c1 : k < sizeof_header_fixed_t fmt
  · exact Or.inl (read_direct_take_short buf k 0 _ hlen (Nat.zero_le _) (by omega))
  · refine Or.inr (Or.inr ⟨buf.take (sizeof_header_fixed_t fmt),
      reader_t.mk (buf.take k) (sizeof_header_fixed_t fmt), ?_, ?_, ?_⟩)
    · have := read_direct_take_ok buf k 0 (sizeof_header_fixed_t fmt) hlen (by omega)
      simpa using this
    · exact hv
    · unfold reader_t.read_path_string
      by_cases c2 : k < sizeof_header_fixed_t fmt + fmt.length_width
      · rw [read_direct_take_short buf k _ _ hlen (by omega) c2]
      · rw [read_direct_take_ok buf k _ _ hlen (by omega)]
        simp only
        rw [read_direct_take_short buf k _ _ hlen (by omega) hk]

/-- Witness of C9: the example container of §8 is accepted in full (28 bytes) by the reader 2.0;
cut after 20 bytes (fixed block and length field read, bundle id missing) it is rejected with
`TruncatedInput`. -/
theorem truncation_detected_witness :
    header_t.read fmt_2_0 (reader_t.mk example_container 0)
        = Except.ok (header_t.mk 2 "abcd1234", reader_t.mk example_container 28) ∧
      header_t.read fmt_2_0 (reader_t.mk (example_container.take 20) 0)
        = Except.error ErrorKind.TruncatedInput :=
  ⟨rfl, (truncation_detected fmt_2_0 example_container ⟨2, "abcd1234"⟩ ⟨example_container, 28⟩ 20
    rfl (by decide)).1⟩

/-- C9 as stated fails: under the reader 1.0, `newer_container` is a fixed block (12 bytes)
followed by a length field and a bundle id that fill the buffer exactly (17 bytes); its first 14
bytes are rejected with the error of the validity test, not with `TruncatedInput`, because the
fixed block is tested before the string is read. -/
theorem truncated_newer_header_is_not_TruncatedInput :
    (reader_t.mk newer_container 0).read_direct (sizeof_header_fixed_t fmt_1_0)
        = Except.ok (newer_container.take 12, reader_t.mk newer_container 12) ∧
    (reader_t.mk newer_container 12).read_path_string fmt_1_0
        = Except.ok ("a", reader_t.mk newer_container newer_container.length) ∧
    14 < newer_container.length ∧
    header_t.read fmt_1_0 (reader_t.mk (newer_container.take 14) 0)
        = Except.error StatusCode.BundleExtractionFailure ∧
    header_t.read fmt_1_0 (reader_t.mk (newer_container.take 14) 0)
        ≠ Except.error ErrorKind.TruncatedInput := by
  refine ⟨rfl, rfl, by decide, rfl, ?_⟩
  intro h
  have h2 : (Except.error ErrorKind.IncompatibleVersion : Except ErrorKind (header_t × reader_t))
      = Except.error ErrorKind.TruncatedInput := h
  cases h2

/-- C10: parsing is deterministic.  Two fresh cursors at position 0 over the same bytes give the
same outcome of `header_t::read`: the same error, or the same header with the same final cursor;
and a successful read leaves the bytes as they were, so a second read from a fresh cursor over
the buffer of the returned cursor repeats the first outcome. -/
theorem read_deterministic (fmt : bundle_format) (first second : reader_t)
    (hbytes : first.buf = second.buf) (hfirst : first.pos = 0) (hsecond : second.pos = 0) :
    header_t.read fmt first = header_t.read fmt second ∧
    (∀ h reader2, header_t.read fmt first = Except.ok (h, reader2) →
      reader2.buf = first.buf ∧
        header_t.read fmt (reader_t.mk reader2.buf 0) = Except.ok (h, reader2)) := by
  obtain ⟨buf1, pos1⟩ := first
  obtain ⟨buf2, pos2⟩ := second
  simp only at hbytes hfirst hsecond
  subst hbytes hfirst hsecond
  refine ⟨rfl, ?_⟩
  intro h reader2 hr
  obtain ⟨bytes, reader1, str, h1, _, hs, _⟩ := (read_ok_iff fmt _ h reader2).1 hr
  obtain ⟨_, _, rfl⟩ := (read_direct_ok_iff _ _ _ _).1 h1
  obtain ⟨length_bytes, r1, bs, h2, h3, _⟩ := (read_path_string_ok_iff fmt _ str reader2).1 hs
  obtain ⟨_, _, rfl⟩ := (read_direct_ok_iff _ _ _ _).1 h2
  obtain ⟨_, _, rfl⟩ := (read_direct_ok_iff _ _ _ _).1 h3
  exact ⟨rfl, hr⟩

/-- Witness of C10 on the example container of §8, read twice by the reader 2.0. -/
theorem read_deterministic_witness :
    header_t.read fmt_2_0 (reader_t.mk example_container 0)
        = header_t.read fmt_2_0 (reader_t.mk example_container 0) ∧
      (∀ h reader2,
        header_t.read fmt_2_0 (reader_t.mk example_container 0) = Except.ok (h, reader2) →
        reader2.buf = example_container ∧
          header_t.read fmt_2_0 (reader_t.mk reader2.buf 0) = Except.ok (h, reader2)) :=
  read_deterministic fmt_2_0 ⟨example_container, 0⟩ ⟨example_container, 0⟩ rfl rfl rfl

/-! ### `header_t::read`: order of the reads, propagation, byte order -/

/-- C11: `header_t::read` consumes the fixed block first and the identifier string second, and
fails fast.  Once the fixed block is read, the cursor stands `sizeof(header_fixed_t)` past its
start; if the block is valid, the string read is the second call and starts at exactly that
position; if it is invalid, the block read is the only call made on the reader, which is left
exactly `sizeof(header_fixed_t)` past its start; and on success the final position is not smaller
than the start plus `sizeof(header_fixed_t)`. -/
theorem read_consumes_fixed_block_then_string (fmt : bundle_format) (reader : reader_t) :
    (∀ bytes reader1,
      reader.read_direct (sizeof_header_fixed_t fmt) = Except.ok (bytes, reader1) →
      reader1.pos = reader.pos + sizeof_header_fixed_t fmt ∧
      ((header_fixed_t.of_bytes fmt bytes).is_valid fmt.major_version fmt.minor_version = true →
        (header_t.read_run fmt reader).calls =
          [cursor_call.read_direct reader.pos (sizeof_header_fixed_t fmt),
            cursor_call.read_path_string (reader.pos + sizeof_header_fixed_t fmt)]) ∧
      ((header_fixed_t.of_bytes fmt bytes).is_valid fmt.major_version fmt.minor_version = false →
        (header_t.read_run fmt reader).calls =
          [cursor_call.read_direct reader.pos (sizeof_header_fixed_t fmt)] ∧
        (header_t.read_run fmt reader).reader.pos = reader.pos + sizeof_header_fixed_t fmt ∧
        ∃ e, (header_t.read_run fmt reader).result = Except.error e)) ∧
    (∀ h, (header_t.read_run fmt reader).result = Except.ok h →
      (header_t.read_run fmt reader).reader.pos ≥ reader.pos + sizeof_header_fixed_t fmt) ∧
    (∀ h reader2, header_t.read fmt reader = Except.ok (h, reader2) →
      reader2.pos ≥ reader.pos + sizeof_header_fixed_t fmt) := by
  have hsucc : ∀ h reader2, header_t.read fmt reader = Except.ok (h, reader2) →
      reader2.pos ≥ reader.pos + sizeof_header_fixed_t fmt := by
    intro h reader2 hr
    obtain ⟨bytes, reader1, str, h1, _, hs, _⟩ := (read_ok_iff fmt _ h reader2).1 hr
    obtain ⟨_, _, rfl⟩ := (read_direct_ok_iff _ _ _ _).1 h1
    obtain ⟨length_bytes, r1, bs, h2, h3, _⟩ := (read_path_string_ok_iff fmt _ str reader2).1 hs
    obtain ⟨_, _, rfl⟩ := (read_direct_ok_iff _ _ _ _).1 h2
    obtain ⟨_, _, rfl⟩ := (read_direct_ok_iff _ _ _ _).1 h3
    simp only [ge_iff_le]
    omega
  refine ⟨?_, ?_, hsucc⟩
  · intro bytes reader1 h1
    have hpos : reader1.pos = reader.pos + sizeof_header_fixed_t fmt := by
      obtain ⟨_, _, rfl⟩ := (read_direct_ok_iff _ _ _ _).1 h1
      rfl
    refine ⟨hpos, ?_, ?_⟩
    · intro hv
      unfold header_t.read_run
      rcases hs : reader1.read_path_string fmt with e2 | ⟨str, reader2⟩
      · simp [h1, hv, hs, hpos]
      · simp [h1, hv, hs, hpos]
    · intro hv
      unfold header_t.read_run
      simp [h1, hv, hpos]
  · intro h hres
    have hr := read_run_result fmt reader
    rw [hres] at hr
    exact hsucc h _ hr

/-- Witness of C11: the example container of §8 (valid under the reader 2.0: block read at 0,
string read at 16, final position 28) and the container of a newer writer under the reader 1.0
(one call, reader left at 12). -/
theorem read_consumes_fixed_block_then_string_witness :
    ((header_t.read_run fmt_2_0 (reader_t.mk example_container 0)).calls =
        [cursor_call.read_direct 0 (sizeof_header_fixed_t fmt_2_0),
          cursor_call.read_path_string (0 + sizeof_header_fixed_t fmt_2_0)] ∧
      (header_t.read_run fmt_2_0 (reader_t.mk example_container 0)).reader.pos = 28) ∧
    ((header_t.read_run fmt_1_0 (reader_t.mk newer_container 0)).calls =
        [cursor_call.read_direct 0 (sizeof_header_fixed_t fmt_1_0)] ∧
      (header_t.read_run fmt_1_0 (reader_t.mk newer_container 0)).reader.pos
        = 0 + sizeof_header_fixed_t fmt_1_0 ∧
      ∃ e, (header_t.read_run fmt_1_0 (reader_t.mk newer_container 0)).result
        = Except.error e) :=
  ⟨⟨((read_consumes_fixed_block_then_string fmt_2_0 ⟨example_container, 0⟩).1
      (example_container.take 16) ⟨example_container, 16⟩ rfl).2.1 rfl, rfl⟩,
    ((read_consumes_fixed_block_then_string fmt_1_0 ⟨newer_container, 0⟩).1
      (newer_container.take 12) ⟨newer_container, 12⟩ rfl).2.2 rfl⟩

/-- C12: an error of the identifier string read is propagated unchanged.  When the fixed block is
read and valid and the string read fails with `e`, `header_t::read` fails with the same `e`,
which is `TruncatedInput` or `MalformedString`, and returns no header. -/
theorem string_error_propagated (fmt : bundle_format) (reader : reader_t) (bytes : List Byte)
    (reader1 : reader_t) (e : ErrorKind)
    (hfix : reader.read_direct (sizeof_header_fixed_t fmt) = Except.ok (bytes, reader1))
    (hvalid : (header_fixed_t.of_bytes fmt bytes).is_valid fmt.major_version fmt.minor_version
      = true)
    (hstr : reader1.read_path_string fmt = Except.error e) :
    header_t.read fmt reader = Except.error e ∧
      (e = ErrorKind.TruncatedInput ∨ e = ErrorKind.MalformedString) ∧
      (∀ h reader2, header_t.read fmt reader ≠ Except.ok (h, reader2)) := by
  have hr : header_t.read fmt reader = Except.error e :=
    (read_error_iff fmt reader e).2 (Or.inr (Or.inr ⟨bytes, reader1, hfix, hvalid, hstr⟩))
  refine ⟨hr, read_path_string_error fmt reader1 e hstr, ?_⟩
  intro h reader2 hok
  rw [hr] at hok
  cases hok

/-- Witness of C12: a bundle id that is not text gives `MalformedString`, a bundle id cut short
gives `TruncatedInput`, both out of `header_t::read` as the string read raised them. -/
theorem string_error_propagated_witness :
    header_t.read fmt_1_0 (reader_t.mk malformed_id_container 0)
        = Except.error ErrorKind.MalformedString ∧
      header_t.read fmt_2_0 (reader_t.mk (example_container.take 20) 0)
        = Except.error ErrorKind.TruncatedInput :=
  ⟨(string_error_propagated fmt_1_0 ⟨malformed_id_container, 0⟩
      (malformed_id_container.take 12) ⟨malformed_id_container, 12⟩ ErrorKind.MalformedString
      rfl rfl rfl).1,
    (string_error_propagated fmt_2_0 ⟨example_container.take 20, 0⟩
      (example_container.take 16) ⟨example_container.take 20, 16⟩ ErrorKind.TruncatedInput
      rfl rfl rfl).1⟩

/-- C13: the fixed block is decoded as little-endian fixed-width integers.  When at least
`sizeof(header_fixed_t)` bytes remain, the block read succeeds and the fixed header that
`header_t::read` tests is the one of the specification's words: `major_version` is
`b0 + 2^8 b1 + 2^16 b2 + 2^24 b3`, `minor_version` the same combination of bytes 4..7,
`num_embedded_files` the little-endian value of the field at offset 8; `read` fails when that
header is invalid, and a returned header has its count. -/
theorem fixed_block_decoded_little_endian (fmt : bundle_format) (reader : reader_t)
    (hlen : sizeof_header_fixed_t fmt ≤ reader.remaining) :
    (∃ bytes reader1,
      reader.read_direct (sizeof_header_fixed_t fmt) = Except.ok (bytes, reader1) ∧
      header_fixed_t.of_bytes fmt bytes = little_endian_fixed_header fmt reader) ∧
    ((little_endian_fixed_header fmt reader).is_valid fmt.major_version fmt.minor_version = false →
      header_t.read fmt reader = Except.error StatusCode.BundleExtractionFailure) ∧
    (∀ h reader2, header_t.read fmt reader = Except.ok (h, reader2) →
      (little_endian_fixed_header fmt reader).is_valid fmt.major_version fmt.minor_version = true ∧
      h.m_num_embedded_files = (little_endian_fixed_header fmt reader).num_embedded_files) := by
  have h1 : reader.read_direct (sizeof_header_fixed_t fmt)
      = Except.ok ((reader.buf.drop reader.pos).take (sizeof_header_fixed_t fmt),
          { buf := reader.buf, pos := reader.pos + sizeof_header_fixed_t fmt }) :=
    (read_direct_ok_iff _ _ _ _).2 ⟨by omega, rfl, rfl⟩
  have hdec := of_bytes_read_direct fmt reader _ _ h1
  refine ⟨⟨_, _, h1, hdec⟩, ?_, ?_⟩
  · intro hinv
    rw [← hdec] at hinv
    exact read_invalid fmt reader _ _ h1 hinv
  · intro h reader2 hr
    obtain ⟨bytes, reader1, str, h1x, hv, _, rfl⟩ := (read_ok_iff fmt reader h reader2).1 hr
    rw [of_bytes_read_direct fmt reader bytes reader1 h1x] at hv
    refine ⟨hv, ?_⟩
    simp only
    rw [of_bytes_read_direct fmt reader bytes reader1 h1x]

/-- Witness of C13: a fixed block whose fields use several byte positions: bytes 4 3 2 1 decode
to major 0x01020304 = 16909060, bytes 1 2 0 0 at offset 8 to the count 0x0201 = 513. -/
theorem fixed_block_decoded_little_endian_witness :
    (∃ bytes reader1,
      (reader_t.mk wide_fields_container 0).read_direct (sizeof_header_fixed_t fmt_1_0)
        = Except.ok (bytes, reader1) ∧
      header_fixed_t.of_bytes fmt_1_0 bytes
        = little_endian_fixed_header fmt_1_0 (reader_t.mk wide_fields_container 0)) ∧
    little_endian_fixed_header fmt_1_0 (reader_t.mk wide_fields_container 0)
      = header_fixed_t.mk 16909060 0 513 :=
  ⟨(fixed_block_decoded_little_endian fmt_1_0 ⟨wide_fields_container, 0⟩ (by decide)).1,
    by decide⟩

/-! ### The validity predicate as an order on versions -/

/-- C14: acceptance is the lexicographic order on versions, monotone in the reader's version and
downward-closed in the writer's.  `is_valid` holds exactly when the count is positive and
`(major_version, minor_version)` is lexicographically at most the reader's version; a header
valid for the reader `(M, m)` is valid for every reader `(M2, m2)` with `M2 > M`, or `M2 = M` and
`m2 >= m`; and if `f` is valid for a reader, every header `g` with the same count and a
lexicographically smaller-or-equal version is valid for that reader. -/
theorem is_valid_lexicographic (f : header_fixed_t) (reader_major reader_minor : Nat) :
    (f.is_valid reader_major reader_minor = true ↔
      f.num_embedded_files > 0 ∧
        toLex (f.major_version, f.minor_version) ≤ toLex (reader_major, reader_minor)) ∧
    (f.is_valid reader_major reader_minor = true →
      ∀ M2 m2, (M2 > reader_major ∨ (M2 = reader_major ∧ m2 ≥ reader_minor)) →
        f.is_valid M2 m2 = true) ∧
    (f.is_valid reader_major reader_minor = true →
      ∀ g : header_fixed_t, g.num_embedded_files = f.num_embedded_files →
        (g.major_version < f.major_version ∨
          (g.major_version = f.major_version ∧ g.minor_version ≤ f.minor_version)) →
        g.is_valid reader_major reader_minor = true) := by
  refine ⟨?_, ?_, ?_⟩
  · rw [is_valid_eq_true_iff, Prod.Lex.le_iff]
  · intro hv M2 m2 hreader
    rw [is_valid_eq_true_iff] at hv ⊢
    omega
  · intro hv g hcount hle
    rw [is_valid_eq_true_iff] at hv ⊢
    omega

/-- Witness of C14: the header 1.2 with two files is valid for the reader 1.2, hence for the
readers 1.3 and 2.0, and so is the lexicographically smaller header 0.9 with two files. -/
theorem is_valid_lexicographic_witness :
    (header_fixed_t.mk 1 2 2).is_valid 1 3 = true ∧
      (header_fixed_t.mk 1 2 2).is_valid 2 0 = true ∧
      (header_fixed_t.mk 0 9 2).is_valid 1 2 = true :=
  ⟨(is_valid_lexicographic ⟨1, 2, 2⟩ 1 2).2.1 (by decide) 1 3 (Or.inr (by decide)),
    (is_valid_lexicographic ⟨1, 2, 2⟩ 1 2).2.1 (by decide) 2 0 (Or.inl (by decide)),
    (is_valid_lexicographic ⟨1, 2, 2⟩ 1 2).2.2 (by decide) ⟨0, 9, 2⟩ rfl (Or.inl (by decide))⟩

end bundle
